import Mathlib

/- Shallow embedding of the Gemini-API-Queue-Library repository
(`gemini_manager/persistence.py`, `gemini_manager/context.py`,
`gemini_manager/core.py`).

Conventions of the embedding:
* Python dicts of the form `{"role": r, "parts": [{"text": t}]}` become `Msg`.
* The flat-file context store (one file `contexts/<id>.json` per context) is
  an association list from context id to the stored blob; the file name
  `id ++ ".json"` is injective in the id, so keying by id is faithful.
* Upstream calls (the summarization model call, the sentence embedding and
  the vector similarity score) are oracle functions passed as parameters;
  the spec only requires that they are deterministic for a fixed input.
* The qdrant vector service is an external collaborator (not code of this
  repository); its `search` is modelled from its interface: up to `limit`
  records with similarity at least `score_threshold`, ranked by descending
  similarity. -/

/-- Turn record: Python dict `{"role": r, "parts": [{"text": t}]}`. -/
structure Msg where
  role : String
  text : String
deriving DecidableEq

/-- State of `RollingSummaryStrategy`: `{'summary': ..., 'history': [...]}`. -/
structure SummaryState where
  summary : String
  history : List Msg
deriving DecidableEq

/-- State of `RetrievalAugmentedStrategy`:
`{"strategy": "rag", "collection_name": ...}` (the `"strategy"` entry is the
constant `"rag"` and is only materialized in the JSON encoding). -/
structure RagState where
  collection_name : String
deriving DecidableEq

/-- The strategy-specific state blob stored for a context. -/
inductive StateBlob where
  | simple (msgs : List Msg)
  | summaryS (s : SummaryState)
  | ragS (r : RagState)
deriving DecidableEq

/-- Which context strategy the manager was constructed with, together with its
parameters (`summary_threshold` for `RollingSummaryStrategy`, `top_k` for
`RetrievalAugmentedStrategy`). -/
inductive StrategyKind where
  | simple
  | summary (threshold : Nat)
  | rag (top_k : Nat)
deriving DecidableEq

/-- Errors raised by the embedded code: `FileExistsError` from
`create_new_context`, `FileNotFoundError` from `load_context` and
`prepare_contents`, the qdrant error for a missing collection, and a type
error for a state blob whose shape does not match the active strategy. -/
inductive PError where
  | fileExists (id : String)
  | fileNotFound (id : String)
  | collectionNotFound (name : String)
  | shapeError
deriving DecidableEq

/-- The `contexts/` directory: one entry per context id. -/
abbrev Store (σ : Type) := List (String × σ)

/-- Look a context id up in the store. -/
def lookupStore {σ : Type} (id : String) : Store σ → Option σ
  | [] => none
  | (k, v) :: rest => if k = id then some v else lookupStore id rest

/-- Embeds `persistence.context_exists`. -/
def context_exists {σ : Type} (id : String) (store : Store σ) : Bool :=
  (lookupStore id store).isSome

/-- Embeds `persistence.save_context`: overwrite the entry if present,
otherwise add it (a fresh file at the end of the directory). -/
def save_context {σ : Type} (id : String) (data : σ) : Store σ → Store σ
  | [] => [(id, data)]
  | (k, v) :: rest =>
    if k = id then (id, data) :: rest else (k, v) :: save_context id data rest

/-- Embeds `persistence.create_new_context`: raise `FileExistsError` if the
context already exists, otherwise save the initial data. -/
def create_new_context {σ : Type} (id : String) (data : σ) (store : Store σ) :
    Except PError (Store σ) :=
  if context_exists id store then .error (.fileExists id)
  else .ok (save_context id data store)

/-- Embeds `persistence.load_context`: raise `FileNotFoundError` if absent. -/
def load_context {σ : Type} (id : String) (store : Store σ) : Except PError σ :=
  match lookupStore id store with
  | some d => .ok d
  | none => .error (.fileNotFound id)

/-- Embeds `persistence.delete_context`: remove the entry if present;
otherwise leave the store alone and report a warning (second component
`true` means the not-found warning was printed). -/
def delete_context {σ : Type} (id : String) : Store σ → Store σ × Bool
  | [] => ([], true)
  | (k, v) :: rest =>
    if k = id then (rest, false)
    else
      let (st, w) := delete_context id rest
      ((k, v) :: st, w)

/-- The character list of the literal `".json"` used by `_get_path` and by
`list_contexts`. -/
def jsonPat : List Char := ['.', 'j', 's', 'o', 'n']

/-- Boolean test that `p` starts the list `l` (used to embed the scanning
step of Python `str.replace`). -/
def startsWithPat : List Char → List Char → Bool
  | [], _ => true
  | _ :: _, [] => false
  | a :: as, b :: bs => a == b && startsWithPat as bs

/-- Boolean test that `p` occurs somewhere in the list. -/
def occursIn (p : List Char) : List Char → Bool
  | [] => startsWithPat p []
  | c :: rest => startsWithPat p (c :: rest) || occursIn p rest

/-- Embeds Python `s.replace(".json", "")`: scan left to right, removing each
non-overlapping occurrence of `".json"` and continuing after it. -/
def stripJson : List Char → List Char
  | [] => []
  | c :: rest =>
    if startsWithPat jsonPat (c :: rest) then stripJson (rest.drop 4)
    else c :: stripJson rest
termination_by l => l.length
decreasing_by
  · simp [List.length_drop]
    omega
  · simp

/-- Embeds `persistence.list_contexts`: the directory holds the file
`id ++ ".json"` for every stored context (every such name passes the
`endswith(".json")` filter), and each file name is reported with
`.replace(".json", "")` applied. -/
def list_contexts {σ : Type} (store : Store σ) : List String :=
  store.map (fun kv => (stripJson (kv.1.toList ++ jsonPat)).asString)

/-- Embeds `GeminiManager._get_next_key` on the deque of api keys:
return the front key and rotate it to the back; `none` on an empty pool. -/
def get_next_key : List String → Option (String × List String)
  | [] => none
  | k :: rest => some (k, rest ++ [k])

/-- Iterate `get_next_key` the given number of times, collecting the keys
handed out and returning the final pool. -/
def drainKeys : Nat → List String → List String × List String
  | 0, keys => ([], keys)
  | n + 1, keys =>
    match get_next_key keys with
    | none => ([], keys)
    | some (k, keys2) =>
      let (outs, fin) := drainKeys n keys2
      (k :: outs, fin)

/-- Helper building a user-role turn record. -/
def userMsg (t : String) : Msg := ⟨"user", t⟩

/-- Helper building a model-role turn record. -/
def modelMsg (t : String) : Msg := ⟨"model", t⟩

/-- Embeds `SimpleContextStrategy.get_initial_state`. -/
def simple_initial : List Msg := []

/-- Embeds `SimpleContextStrategy.prepare_history`: the stored list,
unchanged. -/
def simple_prepare_history (cd : List Msg) : List Msg := cd

/-- Embeds `SimpleContextStrategy.update_state`: append the user record and
then the model record. -/
def simple_update_state (prompt response : String) (cd : List Msg) : List Msg :=
  cd ++ [userMsg prompt, modelMsg response]

/-- The prompt text built by `RollingSummaryStrategy._summarize` around the
text to summarize. -/
def summaryPromptText (text_to_summarize : String) : String :=
  "Concisely summarize this conversation:\n\n" ++ text_to_summarize

/-- The `"\n".join(f"{item['role']}: {item['parts'][0]['text']}" ...)` line
rendering of a history. -/
def historyLines (history : List Msg) : String :=
  String.intercalate "\n" (history.map (fun m => m.role ++ ": " ++ m.text))

/-- Embeds `RollingSummaryStrategy.prepare_history`. The `summarize` oracle
stands for the upstream model call made by `_summarize` (its argument is the
full prompt sent, its value the returned candidate text). Returns the
(possibly mutated) state, the history payload, and the list of summarization
prompts sent upstream during the call. -/
def rolling_prepare_history (threshold : Nat) (summarize : String → String)
    (cd : SummaryState) : SummaryState × List Msg × List String :=
  let (cd2, calls) :=
    if threshold ≤ cd.history.length then
      let full_text := cd.summary ++ "\n" ++ historyLines cd.history
      let call := summaryPromptText full_text
      (⟨summarize call, []⟩, [call])
    else (cd, [])
  let payload :=
    (if cd2.summary ≠ "" then
      [userMsg ("This is a summary of our conversation so far: " ++ cd2.summary),
       modelMsg "Understood. Let\x27s continue."]
     else []) ++ cd2.history
  (cd2, payload, calls)

/-- Embeds `RollingSummaryStrategy.update_state`: append the user and model
records to `history`. -/
def rolling_update_state (prompt response : String) (cd : SummaryState) :
    SummaryState :=
  ⟨cd.summary, cd.history ++ [userMsg prompt, modelMsg response]⟩

/-- Embedding vectors produced by the sentence-transformer oracle. -/
abbrev Vec := List ℚ

/-- One record of a qdrant collection: point id, vector and stored payload
text. -/
structure VPoint where
  pid : String
  vec : Vec
  text : String
deriving DecidableEq

/-- The external vector database: one record list per collection name. -/
abbrev VectorStore := Store (List VPoint)

/-- Insert a point into a list sorted by descending score, keeping the
descending order. -/
def insertDesc (score : VPoint → ℚ) (p : VPoint) : List VPoint → List VPoint
  | [] => [p]
  | q :: rest => if score q < score p then p :: q :: rest else q :: insertDesc score p rest

/-- Sort a record list by descending score. -/
def sortByScoreDesc (score : VPoint → ℚ) (l : List VPoint) : List VPoint :=
  l.foldr (insertDesc score) []

/-- Model of the external `qdrant_client.search` call (spec section 6): the
records of the collection whose similarity to the query reaches the score
threshold, ranked by descending similarity, truncated to `limit`. -/
def qdrant_search (points : List VPoint) (score : VPoint → ℚ) (limit : Nat)
    (thr : ℚ) : List VPoint :=
  (sortByScoreDesc score (points.filter (fun p => thr ≤ score p))).take limit

/-- The `score_threshold=0.6` literal of `GeminiManager.prepare_contents`. -/
def relevance_threshold : ℚ := 6 / 10

/-- The augmented prompt built in the retrieval branch of
`GeminiManager.prepare_contents`. -/
def ragContextBlock (retrieved_context prompt : String) : String :=
  "Given the following relevant information from our past conversation:\n--- BEGIN CONTEXT ---\n"
    ++ retrieved_context
    ++ "\n--- END CONTEXT ---\n\nNow, please answer this question: " ++ prompt

/-- Embeds `GeminiManager.prepare_contents`. The `summarize` oracle is the
rotated upstream client handed to the summarizing strategy; `embed` and `sim`
are the sentence-transformer embedding and the cosine similarity of the
vector service. Returns the new store, the outbound payload, and the list of
summarization prompts sent upstream. -/
def prepare_contents (strat : StrategyKind) (summarize : String → String)
    (embed : String → Vec) (sim : Vec → Vec → ℚ) (vstore : VectorStore)
    (store : Store StateBlob) (prompt : String) (context_id : String) :
    Except PError (Store StateBlob × List Msg × List String) :=
  match lookupStore context_id store with
  | none => .error (.fileNotFound context_id)
  | some context_data =>
    match strat with
    | .rag top_k =>
      match context_data with
      | .ragS r =>
        match lookupStore r.collection_name vstore with
        | none => .error (.collectionNotFound r.collection_name)
        | some points =>
          let query_vector := embed prompt
          let search_results :=
            qdrant_search points (fun p => sim query_vector p.vec) top_k
              relevance_threshold
          let augmented_prompt :=
            if search_results.isEmpty then prompt
            else
              ragContextBlock
                (String.intercalate "\n---\n" (search_results.map (fun h => h.text)))
                prompt
          .ok (store, [userMsg augmented_prompt], [])
      | _ => .error .shapeError
    | .summary threshold =>
      match context_data with
      | .summaryS cd =>
        let (cd2, payload, calls) := rolling_prepare_history threshold summarize cd
        .ok (save_context context_id (.summaryS cd2) store,
             payload ++ [userMsg prompt], calls)
      | _ => .error .shapeError
    | .simple =>
      match context_data with
      | .simple msgs =>
        .ok (save_context context_id (.simple msgs) store,
             simple_prepare_history msgs ++ [userMsg prompt], [])
      | _ => .error .shapeError

/-- The `interaction_text` built by `RetrievalAugmentedStrategy.update_state`. -/
def interactionText (prompt response : String) : String :=
  "User asked: " ++ prompt ++ "\nAI responded: " ++ response

/-- Model of `_get_or_create_collection` followed by `upsert` with a fresh
point id: create the collection if missing, then append the new record. -/
def upsertPoint (vstore : VectorStore) (name : String) (p : VPoint) : VectorStore :=
  save_context name (((lookupStore name vstore).getD []) ++ [p]) vstore

/-- Embeds `GeminiManager.update_context`: a silent no-op when the context
does not exist, otherwise load, `update_state` for the active strategy, and
save. `newPointId` stands for the fresh uuid drawn for the inserted vector
record in the retrieval branch. -/
def update_context (strat : StrategyKind) (embed : String → Vec)
    (prompt response_text : String) (context_id : String) (newPointId : String)
    (store : Store StateBlob) (vstore : VectorStore) :
    Except PError (Store StateBlob × VectorStore) :=
  if context_exists context_id store then
    match lookupStore context_id store with
    | none => .error (.fileNotFound context_id)
    | some context_data =>
      match strat, context_data with
      | .simple, .simple msgs =>
        .ok (save_context context_id
              (.simple (simple_update_state prompt response_text msgs)) store,
             vstore)
      | .summary _, .summaryS cd =>
        .ok (save_context context_id
              (.summaryS (rolling_update_state prompt response_text cd)) store,
             vstore)
      | .rag _, .ragS r =>
        let txt := interactionText prompt response_text
        .ok (save_context context_id (.ragS r) store,
             upsertPoint vstore r.collection_name ⟨newPointId, embed txt, txt⟩)
      | _, _ => .error .shapeError
  else .ok (store, vstore)

/-- Fragment of JSON sufficient for the state blobs this repository persists
with `json.dump` / `json.load`. -/
inductive Json where
  | str (s : String)
  | arr (xs : List Json)
  | obj (fields : List (String × Json))

/-- JSON encoding of one turn record, as written by `json.dump`. -/
def Msg.toJson (m : Msg) : Json :=
  .obj [("role", .str m.role), ("parts", .arr [.obj [("text", .str m.text)]])]

/-- JSON decoding of one turn record. -/
def Msg.fromJson : Json → Option Msg
  | .obj [("role", .str r), ("parts", .arr [.obj [("text", .str t)]])] =>
    some ⟨r, t⟩
  | _ => none

/-- Decode a list of JSON turn records. -/
def decodeMsgList : List Json → Option (List Msg)
  | [] => some []
  | j :: rest =>
    match Msg.fromJson j, decodeMsgList rest with
    | some m, some ms => some (m :: ms)
    | _, _ => none

/-- JSON encoding of a strategy state blob, matching the document shapes the
source writes: a flat array for the plain strategy, an object with `summary`
and `history` for the summarizing strategy, and an object with `strategy`
and `collection_name` for the retrieval strategy. -/
def StateBlob.toJson : StateBlob → Json
  | .simple msgs => .arr (msgs.map Msg.toJson)
  | .summaryS s =>
    .obj [("summary", .str s.summary), ("history", .arr (s.history.map Msg.toJson))]
  | .ragS r =>
    .obj [("strategy", .str "rag"), ("collection_name", .str r.collection_name)]

/-- JSON decoding of a strategy state blob. -/
def StateBlob.fromJson : Json → Option StateBlob
  | .arr xs => (decodeMsgList xs).map .simple
  | .obj [("summary", .str s), ("history", .arr h)] =>
    (decodeMsgList h).map (fun ms => .summaryS ⟨s, ms⟩)
  | .obj [("strategy", .str "rag"), ("collection_name", .str c)] =>
    some (.ragS ⟨c⟩)
  | _ => none

/-- Interleaving of committed turns into the plain strategy record sequence:
user record then model record, per turn, in commit order. -/
def interleaveTurns : List (String × String) → List Msg
  | [] => []
  | (p, r) :: rest => userMsg p :: modelMsg r :: interleaveTurns rest

/-- Fold a sequence of committed turns into plain-strategy state, starting
from `simple_initial` and applying `simple_update_state` per turn. -/
def commitTurnsSimple (turns : List (String × String)) : List Msg :=
  turns.foldl (fun cd pr => simple_update_state pr.1 pr.2 cd) simple_initial

theorem lookupStore_save {σ : Type} (id : String) (d : σ) (store : Store σ) :
    lookupStore id (save_context id d store) = some d := by
  induction store with
  | nil => simp [save_context, lookupStore]
  | cons kv rest ih =>
    obtain ⟨k, v⟩ := kv
    by_cases h : k = id
    · simp [save_context, h, lookupStore]
    · simp [save_context, h, lookupStore, ih]

theorem save_context_absent {σ : Type} (id : String) (d : σ) (store : Store σ)
    (h : lookupStore id store = none) :
    save_context id d store = store ++ [(id, d)] := by
  induction store with
  | nil => simp [save_context]
  | cons kv rest ih =>
    obtain ⟨k, v⟩ := kv
    by_cases hk : k = id
    · simp [lookupStore, hk] at h
    · simp [lookupStore, hk] at h
      simp [save_context, hk, ih h]

theorem drainKeys_append (xs : List String) :
    ∀ ys : List String, drainKeys xs.length (xs ++ ys) = (xs, ys ++ xs) := by
  induction xs with
  | nil => intro ys; simp [drainKeys]
  | cons x xs ih =>
    intro ys
    have step : drainKeys (x :: xs).length ((x :: xs) ++ ys) =
        (x :: (drainKeys xs.length ((xs ++ ys) ++ [x])).1,
         (drainKeys xs.length ((xs ++ ys) ++ [x])).2) := by
      simp [drainKeys, get_next_key]
    rw [step, List.append_assoc, ih (ys ++ [x])]
    simp

theorem commitTurnsSimple_from (turns : List (String × String)) :
    ∀ cd : List Msg,
      turns.foldl (fun cd pr => simple_update_state pr.1 pr.2 cd) cd =
        cd ++ interleaveTurns turns := by
  induction turns with
  | nil => intro cd; simp [interleaveTurns]
  | cons pr rest ih =>
    intro cd
    obtain ⟨p, r⟩ := pr
    rw [List.foldl_cons, ih]
    simp [simple_update_state, interleaveTurns]

theorem interleaveTurns_length (turns : List (String × String)) :
    (interleaveTurns turns).length = 2 * turns.length := by
  induction turns with
  | nil => simp [interleaveTurns]
  | cons pr rest ih =>
    obtain ⟨p, r⟩ := pr
    simp [interleaveTurns, ih]
    omega

/-- Claim C3: for the plain strategy, `update_state` appends exactly one user
record then one model record, `prepare_history` returns the stored sequence
unchanged, and after any sequence of `N` committed turns starting from the
initial state the prepared history holds exactly `2N` records, in commit
order. -/
theorem plain_strategy_two_records_per_turn (turns : List (String × String)) :
    (∀ (prompt response : String) (cd : List Msg),
      simple_update_state prompt response cd =
        cd ++ [userMsg prompt, modelMsg response]) ∧
    simple_prepare_history (commitTurnsSimple turns) = commitTurnsSimple turns ∧
    commitTurnsSimple turns = interleaveTurns turns ∧
    (commitTurnsSimple turns).length = 2 * turns.length := by
  have hc : commitTurnsSimple turns = interleaveTurns turns := by
    have := commitTurnsSimple_from turns simple_initial
    simpa [commitTurnsSimple, simple_initial] using this
  exact ⟨fun _ _ _ => rfl, rfl, hc, by rw [hc]; exact interleaveTurns_length turns⟩

/-- Claim C5: for a pool of `N ≥ 1` keys, each `_get_next_key` call returns
the front credential and moves it to the back, and after exactly `N` calls
the handed-out keys are exactly the original pool, each exactly once in
order, and the pool is restored to its original order. -/
theorem key_rotator_round_robin (keys : List String) (h : 1 ≤ keys.length) :
    (∀ (k : String) (ks : List String),
      get_next_key (k :: ks) = some (k, ks ++ [k])) ∧
    drainKeys keys.length keys = (keys, keys) := by
  refine ⟨fun k ks => rfl, ?_⟩
  have := drainKeys_append keys []
  simpa using this

theorem key_rotator_round_robin_witness :
    1 ≤ (["alpha", "beta", "gamma"] : List String).length ∧
    ((∀ (k : String) (ks : List String),
        get_next_key (k :: ks) = some (k, ks ++ [k])) ∧
      drainKeys (["alpha", "beta", "gamma"] : List String).length
        ["alpha", "beta", "gamma"] =
        (["alpha", "beta", "gamma"], ["alpha", "beta", "gamma"])) :=
  ⟨by decide, key_rotator_round_robin ["alpha", "beta", "gamma"] (by decide)⟩

/-- Claim C6: creating a context twice with the same id succeeds the first
time, raises `FileExistsError` the second time, and the state stored by the
first create is still the one retrieved afterwards. -/
theorem create_duplicate_raises (σ : Type) (id : String) (s1 s2 : σ)
    (store : Store σ) (h : lookupStore id store = none) :
    create_new_context id s1 store = .ok (save_context id s1 store) ∧
    create_new_context id s2 (save_context id s1 store) =
      .error (.fileExists id) ∧
    lookupStore id (save_context id s1 store) = some s1 := by
  refine ⟨?_, ?_, lookupStore_save id s1 store⟩
  · simp [create_new_context, context_exists, h]
  · simp [create_new_context, context_exists, lookupStore_save]

theorem create_duplicate_raises_witness :
    lookupStore "chat" ([] : Store Nat) = none ∧
    (create_new_context "chat" 7 ([] : Store Nat) =
        .ok (save_context "chat" 7 []) ∧
      create_new_context "chat" 9 (save_context "chat" 7 ([] : Store Nat)) =
        .error (.fileExists "chat") ∧
      lookupStore "chat" (save_context "chat" 7 ([] : Store Nat)) = some 7) :=
  ⟨rfl, create_duplicate_raises Nat "chat" 7 9 [] rfl⟩

/-- Claim C8: committing a turn for a context id that is no longer stored is
a silent no-op: no error is raised and both the context store and the vector
store are returned unchanged. -/
theorem update_context_missing_noop (strat : StrategyKind)
    (embed : String → Vec) (prompt response_text context_id newPointId : String)
    (store : Store StateBlob) (vstore : VectorStore)
    (h : lookupStore context_id store = none) :
    update_context strat embed prompt response_text context_id newPointId
      store vstore = .ok (store, vstore) := by
  simp [update_context, context_exists, h]

theorem update_context_missing_noop_witness :
    lookupStore "gone" ([("kept", StateBlob.simple [])] : Store StateBlob) =
      none ∧
    update_context .simple (fun _ => []) "q" "a" "gone" "pid"
      [("kept", StateBlob.simple [])] [] = .ok ([("kept", StateBlob.simple [])], []) :=
  ⟨rfl, update_context_missing_noop .simple (fun _ => []) "q" "a" "gone" "pid"
    [("kept", StateBlob.simple [])] [] rfl⟩

/-- Claim C9: deleting a context id that is not stored raises no error, only
reports the not-found warning, and leaves the store unchanged. -/
theorem delete_missing_noop (σ : Type) (id : String) (store : Store σ)
    (h : lookupStore id store = none) :
    delete_context id store = (store, true) := by
  induction store with
  | nil => simp [delete_context]
  | cons kv rest ih =>
    obtain ⟨k, v⟩ := kv
    by_cases hk : k = id
    · simp [lookupStore, hk] at h
    · simp [lookupStore, hk] at h
      simp [delete_context, hk, ih h]

theorem delete_missing_noop_witness :
    lookupStore "absent" ([("kept", 3)] : Store Nat) = none ∧
    delete_context "absent" ([("kept", 3)] : Store Nat) = ([("kept", 3)], true) :=
  ⟨rfl, delete_missing_noop Nat "absent" [("kept", 3)] rfl⟩

theorem Msg.fromJson_toJson (m : Msg) : Msg.fromJson (Msg.toJson m) = some m := rfl

theorem decodeMsgList_map_toJson (msgs : List Msg) :
    decodeMsgList (msgs.map Msg.toJson) = some msgs := by
  induction msgs with
  | nil => rfl
  | cons m rest ih => simp [decodeMsgList, Msg.fromJson_toJson, ih]

/-- Claim C7: saving a state blob for an id and loading that id returns the
very document that was saved, and that document decodes back to exactly the
original state, for every state of every strategy shape; string content
(empty strings and arbitrary Unicode text included) is carried through
unchanged. -/
theorem save_load_roundtrip (S : StateBlob) (id : String) (store : Store Json) :
    load_context id (save_context id (StateBlob.toJson S) store) =
      .ok (StateBlob.toJson S) ∧
    StateBlob.fromJson (StateBlob.toJson S) = some S := by
  constructor
  · simp [load_context, lookupStore_save]
  · cases S with
    | simple msgs => simp [StateBlob.toJson, StateBlob.fromJson, decodeMsgList_map_toJson]
    | summaryS s => simp [StateBlob.toJson, StateBlob.fromJson, decodeMsgList_map_toJson]
    | ragS r => rfl

theorem mem_insertDesc (score : VPoint → ℚ) (p q : VPoint) (l : List VPoint) :
    q ∈ insertDesc score p l ↔ q = p ∨ q ∈ l := by
  induction l with
  | nil => simp [insertDesc]
  | cons r rest ih =>
    by_cases h : score r < score p
    · simp [insertDesc, h]
    · simp [insertDesc, h, ih]
      tauto

theorem mem_sortByScoreDesc (score : VPoint → ℚ) (l : List VPoint) (q : VPoint) :
    q ∈ sortByScoreDesc score l ↔ q ∈ l := by
  induction l with
  | nil => simp [sortByScoreDesc]
  | cons p rest ih =>
    show q ∈ insertDesc score p (sortByScoreDesc score rest) ↔ _
    rw [mem_insertDesc, ih]
    simp [eq_comm]

theorem mem_qdrant_search (points : List VPoint) (score : VPoint → ℚ)
    (limit : Nat) (thr : ℚ) (q : VPoint)
    (h : q ∈ qdrant_search points score limit thr) :
    q ∈ points ∧ thr ≤ score q := by
  unfold qdrant_search at h
  have h2 : q ∈ sortByScoreDesc score (points.filter (fun p => thr ≤ score p)) :=
    List.take_subset _ _ h
  rw [mem_sortByScoreDesc] at h2
  have h3 := List.mem_filter.mp h2
  exact ⟨h3.1, by simpa using h3.2⟩

/-- Claim C2: the retrieval branch of `prepare_contents` embeds the user
text, searches the collection named by the stored `collection_name` for the
`top_k` nearest records with the `0.6` score threshold applied, every
returned record comes from that collection with similarity at least `0.6`,
every collection record with similarity below `0.6` is discarded, the
payload is the user question unmodified when nothing passes and otherwise
the retrieved texts joined into the synthetic context block before the
question, and the context store is returned unchanged. -/
theorem rag_prepare_filters_by_relevance (top_k : Nat)
    (summarize : String → String) (embed : String → Vec)
    (sim : Vec → Vec → ℚ) (vstore : VectorStore) (store : Store StateBlob)
    (context_id prompt : String) (r : RagState) (points : List VPoint)
    (hlook : lookupStore context_id store = some (.ragS r))
    (hcol : lookupStore r.collection_name vstore = some points) :
    prepare_contents (.rag top_k) summarize embed sim vstore store prompt
        context_id =
      .ok (store,
        [userMsg
          (if (qdrant_search points (fun p => sim (embed prompt) p.vec) top_k
                relevance_threshold).isEmpty
           then prompt
           else
            ragContextBlock
              (String.intercalate "\n---\n"
                ((qdrant_search points (fun p => sim (embed prompt) p.vec)
                    top_k relevance_threshold).map (fun h => h.text)))
              prompt)], []) ∧
    (∀ p ∈ qdrant_search points (fun p => sim (embed prompt) p.vec) top_k
        relevance_threshold,
      p ∈ points ∧ relevance_threshold ≤ sim (embed prompt) p.vec) ∧
    (∀ p ∈ points, sim (embed prompt) p.vec < relevance_threshold →
      p ∉ qdrant_search points (fun p => sim (embed prompt) p.vec) top_k
        relevance_threshold) := by
  refine ⟨?_, ?_, ?_⟩
  · simp [prepare_contents, hlook, hcol]
  · intro p hp
    exact mem_qdrant_search points _ top_k relevance_threshold p hp
  · intro p _ hlt hmem
    have := (mem_qdrant_search points _ top_k relevance_threshold p hmem).2
    exact absurd this (not_le.mpr hlt)

theorem rag_prepare_filters_by_relevance_witness :
    (lookupStore "chat" ([("chat", StateBlob.ragS ⟨"col"⟩)] : Store StateBlob) =
        some (.ragS ⟨"col"⟩) ∧
      lookupStore "col" ([("col", [⟨"p1", [], "a stored fact"⟩])] : VectorStore) =
        some [⟨"p1", [], "a stored fact"⟩]) ∧
    (prepare_contents (.rag 3) (fun _ => "") (fun _ => []) (fun _ _ => 1)
        [("col", [⟨"p1", [], "a stored fact"⟩])]
        [("chat", StateBlob.ragS ⟨"col"⟩)] "the question" "chat" =
      .ok ([("chat", StateBlob.ragS ⟨"col"⟩)],
        [userMsg
          (if (qdrant_search [⟨"p1", [], "a stored fact"⟩]
                (fun p => (fun _ _ => (1 : ℚ)) ((fun _ => ([] : Vec)) "the question") p.vec)
                3 relevance_threshold).isEmpty
           then "the question"
           else
            ragContextBlock
              (String.intercalate "\n---\n"
                ((qdrant_search [⟨"p1", [], "a stored fact"⟩]
                    (fun p => (fun _ _ => (1 : ℚ)) ((fun _ => ([] : Vec)) "the question") p.vec)
                    3 relevance_threshold).map (fun h => h.text)))
              "the question")], []) ∧
      (∀ p ∈ qdrant_search [⟨"p1", [], "a stored fact"⟩]
          (fun p => (fun _ _ => (1 : ℚ)) ((fun _ => ([] : Vec)) "the question") p.vec)
          3 relevance_threshold,
        p ∈ [(⟨"p1", [], "a stored fact"⟩ : VPoint)] ∧
          relevance_threshold ≤ (fun _ _ => (1 : ℚ)) ((fun _ => ([] : Vec)) "the question") p.vec) ∧
      (∀ p ∈ [(⟨"p1", [], "a stored fact"⟩ : VPoint)],
        (fun _ _ => (1 : ℚ)) ((fun _ => ([] : Vec)) "the question") p.vec < relevance_threshold →
          p ∉ qdrant_search [⟨"p1", [], "a stored fact"⟩]
            (fun p => (fun _ _ => (1 : ℚ)) ((fun _ => ([] : Vec)) "the question") p.vec)
            3 relevance_threshold)) :=
  ⟨⟨rfl, rfl⟩,
    rag_prepare_filters_by_relevance 3 (fun _ => "") (fun _ => []) (fun _ _ => 1)
      [("col", [⟨"p1", [], "a stored fact"⟩])]
      [("chat", StateBlob.ragS ⟨"col"⟩)] "chat" "the question" ⟨"col"⟩
      [⟨"p1", [], "a stored fact"⟩] rfl rfl⟩


/-- Claim C4, counterexample: with the retrieval strategy and one stored
record whose similarity to the query reaches the threshold, the payload
returned by `prepare_contents` is a single user turn whose text is the
augmented prompt, which is not equal to the user text `"hi"`; so the
returned list does not end with a turn whose text equals the user text
exactly. -/
theorem prepare_payload_last_not_prompt_cex :
    prepare_contents (.rag 3) (fun _ => "") (fun _ => []) (fun _ _ => 1)
        [("col", [⟨"p1", [], "a stored fact"⟩])]
        [("chat", StateBlob.ragS ⟨"col"⟩)] "hi" "chat" =
      .ok ([("chat", StateBlob.ragS ⟨"col"⟩)],
        [userMsg (ragContextBlock "a stored fact" "hi")], []) ∧
    ragContextBlock "a stored fact" "hi" ≠ "hi" := by
  constructor
  · simp [prepare_contents, lookupStore, qdrant_search, sortByScoreDesc,
      relevance_threshold, List.filter]
    rw [(by norm_num : decide ((6 : ℚ) / 10 ≤ 1) = true)]
    simp [insertDesc]
    decide
  · decide

/-- Claim C4, amended: whenever `prepare_contents` succeeds, the returned
list ends with a user-role turn whose text ends with the given user text;
for the plain and summarizing strategies that text equals the user text
exactly, while for the retrieval strategy the text is the user text itself
when no stored record passes the relevance threshold and otherwise the
synthetic context block built from the passing records prepended to the
user text. -/
theorem prepare_payload_ends_with_user_prompt (strat : StrategyKind)
    (summarize : String → String) (embed : String → Vec)
    (sim : Vec → Vec → ℚ) (vstore : VectorStore) (store store2 : Store StateBlob)
    (prompt context_id : String) (payload : List Msg) (calls : List String)
    (h : prepare_contents strat summarize embed sim vstore store prompt
        context_id = .ok (store2, payload, calls)) :
    ∃ (t pre : String) (front : List Msg),
      payload = front ++ [userMsg t] ∧ t = pre ++ prompt ∧
      ((∀ k, strat ≠ .rag k) → t = prompt) ∧
      (∀ (tk : Nat) (r : RagState) (points : List VPoint),
        strat = .rag tk →
        lookupStore context_id store = some (.ragS r) →
        lookupStore r.collection_name vstore = some points →
        ((qdrant_search points (fun p => sim (embed prompt) p.vec) tk
            relevance_threshold).isEmpty = true → t = prompt) ∧
        ((qdrant_search points (fun p => sim (embed prompt) p.vec) tk
            relevance_threshold).isEmpty = false →
          t = ragContextBlock
                (String.intercalate "\n---\n"
                  ((qdrant_search points (fun p => sim (embed prompt) p.vec)
                      tk relevance_threshold).map (fun q => q.text)))
                prompt)) := by
  rcases hl : lookupStore context_id store with _ | blob
  · simp [prepare_contents, hl] at h
  · cases strat with
    | simple =>
      cases blob with
      | simple msgs =>
        simp only [prepare_contents, hl] at h
        simp only [Except.ok.injEq, Prod.mk.injEq] at h
        refine ⟨prompt, "", msgs, ?_, by simp, fun _ => rfl,
          fun _ _ _ hstrat => nomatch hstrat⟩
        rw [← h.2.1]
        rfl
      | summaryS s => simp [prepare_contents, hl] at h
      | ragS r => simp [prepare_contents, hl] at h
    | summary threshold =>
      cases blob with
      | summaryS cd =>
        rcases hrp : rolling_prepare_history threshold summarize cd with ⟨cd2, pl, cl⟩
        simp only [prepare_contents, hl, hrp] at h
        simp only [Except.ok.injEq, Prod.mk.injEq] at h
        refine ⟨prompt, "", pl, ?_, by simp, fun _ => rfl,
          fun _ _ _ hstrat => nomatch hstrat⟩
        rw [← h.2.1]
      | simple msgs => simp [prepare_contents, hl] at h
      | ragS r => simp [prepare_contents, hl] at h
    | rag top_k =>
      cases blob with
      | ragS r =>
        rcases hc : lookupStore r.collection_name vstore with _ | points
        · simp [prepare_contents, hl, hc] at h
        · simp only [prepare_contents, hl, hc] at h
          simp only [Except.ok.injEq, Prod.mk.injEq] at h
          by_cases he :
            (qdrant_search points (fun p => sim (embed prompt) p.vec) top_k
              relevance_threshold).isEmpty
          · refine ⟨prompt, "", [], ?_, by simp, fun _ => rfl, ?_⟩
            · rw [← h.2.1]
              simp [he]
            · intro tk r2 pts hstrat hlook2 hcol2
              injection hstrat with htk
              subst htk
              have hr : r = r2 := by simpa using hlook2
              subst hr
              rw [hc] at hcol2
              have hp : points = pts := by simpa using hcol2
              subst hp
              exact ⟨fun _ => rfl, fun hfalse => by simp [he] at hfalse⟩
          · refine
              ⟨ragContextBlock
                  (String.intercalate "\n---\n"
                    ((qdrant_search points (fun p => sim (embed prompt) p.vec)
                        top_k relevance_threshold).map (fun q => q.text)))
                  prompt,
               "Given the following relevant information from our past conversation:\n--- BEGIN CONTEXT ---\n"
                  ++ String.intercalate "\n---\n"
                      ((qdrant_search points (fun p => sim (embed prompt) p.vec)
                          top_k relevance_threshold).map (fun q => q.text))
                  ++ "\n--- END CONTEXT ---\n\nNow, please answer this question: ",
               [], ?_, ?_, fun hk => absurd rfl (hk top_k), ?_⟩
            · rw [← h.2.1]
              simp [he]
            · simp [ragContextBlock, String.append_assoc]
            · intro tk r2 pts hstrat hlook2 hcol2
              injection hstrat with htk
              subst htk
              have hr : r = r2 := by simpa using hlook2
              subst hr
              rw [hc] at hcol2
              have hp : points = pts := by simpa using hcol2
              subst hp
              exact ⟨fun htrue => absurd htrue he, fun _ => rfl⟩
      | simple msgs => simp [prepare_contents, hl] at h
      | summaryS s => simp [prepare_contents, hl] at h

theorem prepare_payload_ends_with_user_prompt_witness :
    prepare_contents .simple (fun _ => "") (fun _ => []) (fun _ _ => 0) []
        [("chat", StateBlob.simple [])] "hi" "chat" =
      .ok ([("chat", StateBlob.simple [])], [userMsg "hi"], []) ∧
    ∃ (t pre : String) (front : List Msg),
      [userMsg "hi"] = front ++ [userMsg t] ∧ t = pre ++ "hi" ∧
      ((∀ k, StrategyKind.simple ≠ .rag k) → t = "hi") ∧
      (∀ (tk : Nat) (r : RagState) (points : List VPoint),
        StrategyKind.simple = .rag tk →
        lookupStore "chat" ([("chat", StateBlob.simple [])] : Store StateBlob) =
          some (.ragS r) →
        lookupStore r.collection_name ([] : VectorStore) = some points →
        ((qdrant_search points (fun p => (0 : ℚ)) tk
            relevance_threshold).isEmpty = true → t = "hi") ∧
        ((qdrant_search points (fun p => (0 : ℚ)) tk
            relevance_threshold).isEmpty = false →
          t = ragContextBlock
                (String.intercalate "\n---\n"
                  ((qdrant_search points (fun p => (0 : ℚ)) tk
                      relevance_threshold).map (fun q => q.text)))
                "hi")) :=
  ⟨rfl,
    prepare_payload_ends_with_user_prompt .simple (fun _ => "") (fun _ => [])
      (fun _ _ => 0) [] [("chat", StateBlob.simple [])]
      [("chat", StateBlob.simple [])] "hi" "chat" [userMsg "hi"] [] rfl⟩
theorem rolling_prepare_history_drains (threshold : Nat)
    (summarize : String → String) (cd : SummaryState)
    (hlen : threshold ≤ cd.history.length) :
    rolling_prepare_history threshold summarize cd =
      (⟨summarize (summaryPromptText (cd.summary ++ "\n" ++ historyLines cd.history)), []⟩,
       (if summarize (summaryPromptText (cd.summary ++ "\n" ++ historyLines cd.history)) ≠ "" then
          [userMsg ("This is a summary of our conversation so far: " ++
            summarize (summaryPromptText (cd.summary ++ "\n" ++ historyLines cd.history))),
           modelMsg "Understood. Let\x27s continue."]
        else []),
       [summaryPromptText (cd.summary ++ "\n" ++ historyLines cd.history)]) := by
  simp [rolling_prepare_history, hlen]

/-- Claim C1, counterexample: `RollingSummaryStrategy` accepts
`summary_threshold = 0`, and for that threshold a state whose history length
(0) reaches the threshold does trigger the summarization call, set the
summary, clear the history and persist the mutation, yet the resulting
history length 0 is not strictly below the threshold 0 — so the claimed
consequence `len(history) < threshold` fails as stated. -/
theorem summarizing_zero_threshold_cex :
    prepare_contents (.summary 0) (fun _ => "SUM") (fun _ => []) (fun _ _ => 0) []
        [("chat", StateBlob.summaryS ⟨"", []⟩)] "hi" "chat" =
      .ok ([("chat", StateBlob.summaryS ⟨"SUM", []⟩)],
        [userMsg "This is a summary of our conversation so far: SUM",
         modelMsg "Understood. Let\x27s continue.", userMsg "hi"],
        [summaryPromptText ("" ++ "\n" ++ historyLines ([] : List Msg))]) ∧
    ¬ (([] : List Msg).length < 0) := by
  constructor
  · rfl
  · decide

/-- Claim C1, amended: for every threshold of at least 1 (the code also
accepts threshold 0, for which the final inequality fails), whenever the
summarizing strategy prepares a turn on a stored state whose history length
reaches the threshold, exactly one summarization model call is issued (its
prompt wraps the previous summary and the rendered history), the new state
has `summary` equal to that call's result and an empty `history`, the
orchestrator persists the mutated state in the returned store, and the
persisted history length is strictly below the threshold. -/
theorem summarizing_drains_history (threshold : Nat)
    (summarize : String → String) (embed : String → Vec)
    (sim : Vec → Vec → ℚ) (vstore : VectorStore) (store : Store StateBlob)
    (context_id prompt : String) (cd : SummaryState)
    (hth : 1 ≤ threshold)
    (hlook : lookupStore context_id store = some (.summaryS cd))
    (hlen : threshold ≤ cd.history.length) :
    prepare_contents (.summary threshold) summarize embed sim vstore store
        prompt context_id =
      .ok (save_context context_id
            (.summaryS ⟨summarize (summaryPromptText
                (cd.summary ++ "\n" ++ historyLines cd.history)), []⟩) store,
           (rolling_prepare_history threshold summarize cd).2.1 ++ [userMsg prompt],
           [summaryPromptText (cd.summary ++ "\n" ++ historyLines cd.history)]) ∧
    lookupStore context_id
        (save_context context_id
          (.summaryS ⟨summarize (summaryPromptText
              (cd.summary ++ "\n" ++ historyLines cd.history)), []⟩) store) =
      some (.summaryS ⟨summarize (summaryPromptText
          (cd.summary ++ "\n" ++ historyLines cd.history)), []⟩) ∧
    (([] : List Msg)).length < threshold := by
  have hrp := rolling_prepare_history_drains threshold summarize cd hlen
  refine ⟨?_, lookupStore_save _ _ _, by simpa using hth⟩
  simp [prepare_contents, hlook, hrp]

theorem summarizing_drains_history_witness :
    (1 ≤ 1 ∧
      lookupStore "chat"
          ([("chat", StateBlob.summaryS ⟨"", [userMsg "u", modelMsg "m"]⟩)] :
            Store StateBlob) =
        some (.summaryS ⟨"", [userMsg "u", modelMsg "m"]⟩) ∧
      1 ≤ (SummaryState.mk "" [userMsg "u", modelMsg "m"]).history.length) ∧
    (prepare_contents (.summary 1) (fun _ => "SUM") (fun _ => []) (fun _ _ => 0)
        [] [("chat", StateBlob.summaryS ⟨"", [userMsg "u", modelMsg "m"]⟩)]
        "hi" "chat" =
      .ok (save_context "chat"
            (.summaryS ⟨(fun _ => "SUM") (summaryPromptText
                ("" ++ "\n" ++ historyLines [userMsg "u", modelMsg "m"])), []⟩)
            [("chat", StateBlob.summaryS ⟨"", [userMsg "u", modelMsg "m"]⟩)],
           (rolling_prepare_history 1 (fun _ => "SUM")
              ⟨"", [userMsg "u", modelMsg "m"]⟩).2.1 ++ [userMsg "hi"],
           [summaryPromptText ("" ++ "\n" ++ historyLines [userMsg "u", modelMsg "m"])]) ∧
      lookupStore "chat"
          (save_context "chat"
            (.summaryS ⟨(fun _ => "SUM") (summaryPromptText
                ("" ++ "\n" ++ historyLines [userMsg "u", modelMsg "m"])), []⟩)
            [("chat", StateBlob.summaryS ⟨"", [userMsg "u", modelMsg "m"]⟩)]) =
        some (.summaryS ⟨(fun _ => "SUM") (summaryPromptText
            ("" ++ "\n" ++ historyLines [userMsg "u", modelMsg "m"])), []⟩) ∧
      (([] : List Msg)).length < 1) :=
  ⟨⟨by decide, rfl, by decide⟩,
    summarizing_drains_history 1 (fun _ => "SUM") (fun _ => []) (fun _ _ => 0)
      [] [("chat", StateBlob.summaryS ⟨"", [userMsg "u", modelMsg "m"]⟩)]
      "chat" "hi" ⟨"", [userMsg "u", modelMsg "m"]⟩ (by decide) rfl (by decide)⟩

theorem startsWithPat_length_le (p : List Char) :
    ∀ l, startsWithPat p l = true → p.length ≤ l.length := by
  induction p with
  | nil => intro l _; simp
  | cons a as ih =>
    intro l h
    cases l with
    | nil => simp [startsWithPat] at h
    | cons b bs =>
      simp only [startsWithPat, Bool.and_eq_true] at h
      simpa using ih bs h.2

theorem startsWithPat_append (p l m : List Char)
    (h : startsWithPat p l = true) : startsWithPat p (l ++ m) = true := by
  induction p generalizing l with
  | nil => simp [startsWithPat]
  | cons a as ih =>
    cases l with
    | nil => simp [startsWithPat] at h
    | cons b bs =>
      simp only [startsWithPat, Bool.and_eq_true] at h
      simp only [List.cons_append, startsWithPat, Bool.and_eq_true]
      exact ⟨h.1, ih bs h.2⟩

theorem startsWithPat_json_append_false (c : Char) (rest : List Char)
    (h : startsWithPat jsonPat (c :: rest) = false) :
    startsWithPat jsonPat ((c :: rest) ++ jsonPat) = false := by
  rcases rest with _ | ⟨b, _ | ⟨c2, _ | ⟨d, _ | ⟨e, t⟩⟩⟩⟩
  · simp [startsWithPat, jsonPat]
  · simp [startsWithPat, jsonPat]
  · simp [startsWithPat, jsonPat]
  · simp [startsWithPat, jsonPat]
  · simp only [jsonPat, startsWithPat, List.cons_append, Bool.and_eq_true,
      beq_iff_eq, Bool.eq_false_iff, ne_eq] at h ⊢
    exact h

theorem stripJson_append_pat (l : List Char) :
    stripJson (l ++ jsonPat) = stripJson l := by
  induction l using stripJson.induct with
  | case1 => simp [stripJson, startsWithPat, jsonPat]
  | case2 c rest h ih =>
    have h4 : 4 ≤ rest.length := by
      have := startsWithPat_length_le jsonPat (c :: rest) h
      simp [jsonPat] at this
      omega
    have h2 : startsWithPat jsonPat (c :: (rest ++ jsonPat)) = true := by
      have := startsWithPat_append jsonPat (c :: rest) jsonPat h
      simpa using this
    simp only [List.cons_append, stripJson, h2, h, if_true]
    rw [List.drop_append_of_le_length h4]
    exact ih
  | case3 c rest h ih =>
    have hf : startsWithPat jsonPat (c :: rest) = false := by
      simpa using h
    have h2 : ¬ startsWithPat jsonPat (c :: (rest ++ jsonPat)) = true := by
      have := startsWithPat_json_append_false c rest hf
      rw [List.cons_append] at this
      simp [this]
    simp only [List.cons_append, stripJson]
    rw [if_neg h2, if_neg h, ih]

theorem stripJson_of_not_occurs (l : List Char)
    (h : occursIn jsonPat l = false) : stripJson l = l := by
  induction l with
  | nil => simp [stripJson]
  | cons c rest ih =>
    simp only [occursIn, Bool.or_eq_false_iff] at h
    simp only [stripJson, h.1, Bool.false_eq_true, if_false]
    rw [ih h.2]

theorem stripJson_length_le (l : List Char) :
    (stripJson l).length ≤ l.length := by
  induction l using stripJson.induct with
  | case1 => simp [stripJson]
  | case2 c rest h ih =>
    simp only [stripJson, h, if_true]
    simp only [List.length_drop] at ih
    simp [List.length_cons]
    omega
  | case3 c rest h ih =>
    simp only [stripJson, h, Bool.false_eq_true, if_false]
    simp [List.length_cons]
    omega

theorem stripJson_length_lt (l : List Char)
    (h : occursIn jsonPat l = true) : (stripJson l).length < l.length := by
  induction l using stripJson.induct with
  | case1 => simp [occursIn, startsWithPat, jsonPat] at h
  | case2 c rest hc ih =>
    have hle := stripJson_length_le (rest.drop 4)
    simp only [stripJson, hc, if_true]
    simp only [List.length_drop] at hle
    simp [List.length_cons]
    omega
  | case3 c rest hc ih =>
    simp only [occursIn, hc, Bool.false_or] at h
    have := ih h
    simp only [stripJson, hc, Bool.false_eq_true, if_false]
    simp [List.length_cons]
    omega

/-- Claim C10: right after a successful create, `list_contexts` contains the
id with Python `replace(".json", "")` applied to it: for an id in which
`".json"` does not occur this is the id itself, and for an id in which
`".json"` occurs the listed name differs from the original id, so the
create/list round trip does not return the original id. -/
theorem create_list_roundtrip_strips_json (σ : Type) (id : String) (s : σ)
    (store : Store σ) (h : lookupStore id store = none) :
    create_new_context id s store = .ok (save_context id s store) ∧
    (stripJson id.toList).asString ∈ list_contexts (save_context id s store) ∧
    (occursIn jsonPat id.toList = false →
      (stripJson id.toList).asString = id) ∧
    (occursIn jsonPat id.toList = true →
      (stripJson id.toList).asString ≠ id) := by
  refine ⟨?_, ?_, ?_, ?_⟩
  · simp [create_new_context, context_exists, h]
  · rw [save_context_absent id s store h]
    simp only [list_contexts, List.map_append, List.mem_append]
    right
    simp [stripJson_append_pat]
  · intro hno
    rw [stripJson_of_not_occurs id.toList hno, String.asString_toList]
  · intro hyes hcontra
    have h1 : stripJson id.toList = id.toList := by
      have := congrArg String.toList hcontra
      rwa [List.toList_asString] at this
    have h2 := stripJson_length_lt id.toList hyes
    rw [h1] at h2
    exact lt_irrefl _ h2

theorem create_list_roundtrip_strips_json_witness :
    lookupStore "log.json" ([] : Store Nat) = none ∧
    (create_new_context "log.json" 0 ([] : Store Nat) =
        .ok (save_context "log.json" 0 []) ∧
      (stripJson ("log.json").toList).asString ∈
        list_contexts (save_context "log.json" 0 ([] : Store Nat)) ∧
      (occursIn jsonPat ("log.json").toList = false →
        (stripJson ("log.json").toList).asString = "log.json") ∧
      (occursIn jsonPat ("log.json").toList = true →
        (stripJson ("log.json").toList).asString ≠ "log.json")) :=
  ⟨rfl, create_list_roundtrip_strips_json Nat "log.json" 0 [] rfl⟩
